import Mathlib

/-!
# magicd: MQTT to Magic Home bridge

A shallow embedding of `magicd.go` (`processMessage`, `mqttMessageHandler`,
`checkError`, `addController` and the device loop and teardown of `main`) together
with the library behaviour these functions rely on (`regexp`, `strconv`, the
device connection of `magichome`, the topic filters of the MQTT client).

Go strings are modelled by Lean strings, Go's `int` is a 64 bit integer modelled by
`Int`, `uint8`/`uint16` conversions are `% 256` / `% 65536`.  Calls on the device
library are recorded in a trace of events; what the device answers is given by an
environment that may depend on everything that happened before.
-/

namespace Magicd

/-! ## Regular expressions (the fragment of Go's `regexp` used by `processMessage`) -/

/-- One character position of a pattern: a literal character or `.`. -/
inductive Atom where
  | chr (c : Char)
  | dot
  deriving DecidableEq, Repr

/-- A pattern item: an atom, or an atom followed by `*`. -/
inductive Piece where
  | one (a : Atom)
  | star (a : Atom)
  deriving DecidableEq, Repr

/-- A compiled pattern: a concatenation of items. -/
abbrev Regexp := List Piece

/-- The atom written by one pattern character. -/
def atomOf (c : Char) : Atom :=
  if c = '.' then Atom.dot else Atom.chr c

/-- Pattern compilation, `regexp.Compile`, for patterns built from literal characters,
`.` and a trailing `*`. -/
def compileChars : List Char → Regexp
  | [] => []
  | [c] => [Piece.one (atomOf c)]
  | c :: d :: rest =>
    if d = '*' then Piece.star (atomOf c) :: compileChars rest
    else Piece.one (atomOf c) :: compileChars (d :: rest)

/-- Go's `regexp.Compile` on a pattern string. -/
def Compile (pattern : String) : Regexp :=
  compileChars pattern.data

/-- A character accepted by an atom.  In Go's default mode `.` matches every character
except the line feed. -/
def Atom.accepts : Atom → Char → Bool
  | Atom.chr c, x => x == c
  | Atom.dot, x => x != '\n'

/-- Try the continuation `k` after zero or more characters accepted by `a`. -/
def matchStar (a : Atom) (k : List Char → Bool) : List Char → Bool
  | [] => k []
  | x :: xs => k (x :: xs) || (a.accepts x && matchStar a k xs)

/-- Does a match of the pattern start at the beginning of the text? -/
def matchHere : Regexp → List Char → Bool
  | [] => fun _ => true
  | Piece.star a :: re => fun text => matchStar a (matchHere re) text
  | Piece.one a :: re => fun text =>
    match text with
    | [] => false
    | x :: xs => a.accepts x && matchHere re xs

/-- Does a match of the pattern start at some position of the text? -/
def matchAnywhere (re : Regexp) : List Char → Bool
  | [] => matchHere re []
  | x :: xs => matchHere re (x :: xs) || matchAnywhere re xs

/-- Go's `(*Regexp).MatchString`: the text contains a match of the pattern. -/
def MatchString (re : Regexp) (s : String) : Bool :=
  matchAnywhere re s.data

/-- The words of a pattern: what a match of the whole pattern looks like. -/
def Lang : Regexp → List Char → Prop
  | [], m => m = []
  | Piece.one a :: re, m => ∃ x m', m = x :: m' ∧ a.accepts x = true ∧ Lang re m'
  | Piece.star a :: re, m => ∃ u v, m = u ++ v ∧ (∀ x ∈ u, a.accepts x = true) ∧ Lang re v

/-- The topic contains `light/`, then characters other than the line feed, then the
suffix: the shape the pattern `light/.*` followed by the suffix looks for. -/
def Occurs (suffix : String) (topic : String) : Prop :=
  ∃ pre mid post, topic.data = pre ++ "light/".data ++ mid ++ suffix.data ++ post ∧
    '\n' ∉ mid

/-! ## `strconv` -/

/-- The two errors of `strconv`: `ErrSyntax` and `ErrRange`. -/
inductive NumError where
  | ErrSyntax
  | ErrRange
  deriving DecidableEq, Repr

/-- Largest value of a `uint64`. -/
def maxUint64 : Nat := 2 ^ 64 - 1

/-- The digit loop of `strconv.ParseUint(s, 10, 64)`: the value reached and the error. -/
def parseUintLoop : List Char → Nat → Nat × Option NumError
  | [], n => (n, none)
  | c :: cs, n =>
    if c.toNat < 48 ∨ 57 < c.toNat then (0, some NumError.ErrSyntax)
    else if n ≥ maxUint64 / 10 + 1 then (maxUint64, some NumError.ErrRange)
    else
      let n1 := n * 10 + (c.toNat - 48)
      if n1 > maxUint64 then (maxUint64, some NumError.ErrRange)
      else parseUintLoop cs n1

/-- Go's `strconv.ParseUint(s, 10, 64)`. -/
def ParseUint (s : List Char) : Nat × Option NumError :=
  if s = [] then (0, some NumError.ErrSyntax) else parseUintLoop s 0

/-- A leading sign is picked off. -/
def stripSign : List Char → List Char
  | '+' :: s => s
  | '-' :: s => s
  | s => s

/-- Is the first character a minus sign? -/
def isNeg : List Char → Bool
  | '-' :: _ => true
  | _ => false

/-- Go's `strconv.ParseInt(s, 10, 0)` with a 64 bit `int`: the value and the error. -/
def ParseInt (s : List Char) : Int × Option NumError :=
  if s = [] then (0, some NumError.ErrSyntax)
  else
    match ParseUint (stripSign s) with
    | (_, some NumError.ErrSyntax) => (0, some NumError.ErrSyntax)
    | (un, _) =>
      if !isNeg s && un ≥ 2 ^ 63 then (2 ^ 63 - 1, some NumError.ErrRange)
      else if isNeg s && un > 2 ^ 63 then (-(2 ^ 63), some NumError.ErrRange)
      else (if isNeg s then -(un : Int) else (un : Int), none)

/-- The digit loop of the fast path of `strconv.Atoi`. -/
def atoiDigits : List Char → Nat → Option Nat
  | [], n => some n
  | c :: cs, n =>
    if c.toNat < 48 ∨ 57 < c.toNat then none
    else atoiDigits cs (n * 10 + (c.toNat - 48))

/-- Go's `strconv.Atoi` with a 64 bit `int`, the value and the error: strings of 1 to 18
bytes take the fast path, all others go through `ParseInt`. -/
def Atoi (s : String) : Int × Option NumError :=
  if 0 < s.utf8ByteSize ∧ s.utf8ByteSize < 19 then
    if stripSign s.data = [] then (0, some NumError.ErrSyntax)
    else
      match atoiDigits (stripSign s.data) 0 with
      | none => (0, some NumError.ErrSyntax)
      | some n => (if isNeg s.data then -(n : Int) else (n : Int), none)
  else ParseInt s.data

/-! ## The device library and the trace of calls -/

/-- Go's non-nil `error` values: an error of `strconv`, or an error reported by the
device connection. -/
inductive GoError where
  | num (e : NumError)
  | dev (code : Nat)
  deriving DecidableEq, Repr

/-- A `*magichome.Controller`: one connection to a device, named by a number. -/
abbrev Controller := Nat

/-- A `net.IP`. -/
abbrev IP := List Nat

/-- The power state, `magichome.State`. -/
inductive State where
  | On
  | Off
  deriving DecidableEq, Repr

/-- The colour, `magichome.Color`, four `uint8` channels. -/
structure Color where
  R : Nat
  G : Nat
  B : Nat
  W : Nat
  deriving DecidableEq, Repr

/-- A setter call on a connection. -/
inductive Command where
  | SetState (s : State)
  | SetColor (col : Color)
  deriving DecidableEq, Repr

/-- One call on the device library, with what it returned. -/
inductive Event where
  | call (c : Controller) (cmd : Command) (err : Option GoError)
  | New (ip : IP) (port : Nat) (c : Controller) (err : Option GoError)
  | Close (c : Controller)
  deriving DecidableEq, Repr

/-- The world outside: what a setter and `magichome.New` (connection and error) answer
after the calls made so far, and `net.ParseIP`. -/
structure Env where
  call : List Event → Controller → Command → Option GoError
  New : List Event → IP → Nat → Controller × Option GoError
  ParseIP : String → IP

/-- A broker message, `mqtt.Message`: topic and payload (as `string(msg.Payload())`). -/
structure Message where
  Topic : String
  Payload : String
  deriving DecidableEq, Repr

/-- The session of one device. -/
structure MHController where
  name : String
  ip : IP
  port : Nat
  c : Controller
  deriving DecidableEq, Repr

/-- One device of the configuration file. -/
structure MHControllerConfig where
  Name : String
  Ip : String
  Port : String
  deriving DecidableEq, Repr

/-- How a function of the program ends: it returns, or the process has exited. -/
inductive Outcome (α : Type) where
  | returned (a : α) (tr : List Event)
  | exited (code : Nat) (tr : List Event)
  deriving DecidableEq, Repr

/-! ## The program -/

/-- The function `checkError`: the exit code when the error is not nil. -/
def checkError (e : Option GoError) : Option Nat :=
  match e with
  | some _ => some 1
  | none => none

/-- A setter call `c.SetState(..)` / `c.SetColor(..)`: the error returned and the trace. -/
def invoke (env : Env) (c : Controller) (cmd : Command) (tr : List Event) :
    Option GoError × List Event :=
  (env.call tr c cmd, tr ++ [Event.call c cmd (env.call tr c cmd)])

/-- The function `processMessage`. -/
def processMessage (env : Env) (c : Controller) (msg : Message) (tr : List Event) :
    Option GoError × List Event :=
  if MatchString (Compile "light/.*/on") msg.Topic then
    if msg.Payload = "True" then invoke env c (Command.SetState State.On) tr
    else invoke env c (Command.SetState State.Off) tr
  else if MatchString (Compile "light/.*/value") msg.Topic then
    match Atoi msg.Payload with
    | (_, some e) => (some (GoError.num e), tr)
    | (v, none) =>
      invoke env c (Command.SetColor
        { R := (v % 256).toNat, G := (v % 256).toNat, B := (v % 256).toNat, W := 0 }) tr
  else (none, tr)

/-- The handler returned by `mqttMessageHandler(mh)`, run on one message: the session
afterwards and the trace, or the exit of the process. -/
def mqttMessageHandler (env : Env) (mh : MHController) (msg : Message) (tr : List Event) :
    Outcome MHController :=
  match processMessage env mh.c msg tr with
  | (none, tr1) => Outcome.returned mh tr1
  | (some _, tr1) =>
    match checkError (env.New tr1 mh.ip mh.port).2 with
    | some code =>
      Outcome.exited code
        (tr1 ++ [Event.New mh.ip mh.port (env.New tr1 mh.ip mh.port).1
          (env.New tr1 mh.ip mh.port).2, Event.Close mh.c])
    | none =>
      Outcome.returned { mh with c := (env.New tr1 mh.ip mh.port).1 }
        (processMessage env (env.New tr1 mh.ip mh.port).1 msg
          (tr1 ++ [Event.New mh.ip mh.port (env.New tr1 mh.ip mh.port).1
            (env.New tr1 mh.ip mh.port).2, Event.Close mh.c])).2

/-- A subscription of the broker client: the topic filter and the session its handler
holds (the `&mh` given to `mqttMessageHandler`). -/
structure Route where
  filter : String
  mh : MHController
  deriving DecidableEq, Repr

/-- The function `addController`: the session value it returns and the subscription it
registers, or the exit of the process. -/
def addController (env : Env) (mhcfg : MHControllerConfig) (tr : List Event) :
    Outcome (MHController × Route) :=
  match checkError
      (env.New tr (env.ParseIP mhcfg.Ip) ((ParseUint mhcfg.Port.data).1 % 65536)).2 with
  | some code =>
    Outcome.exited code
      (tr ++ [Event.New (env.ParseIP mhcfg.Ip) ((ParseUint mhcfg.Port.data).1 % 65536)
        (env.New tr (env.ParseIP mhcfg.Ip) ((ParseUint mhcfg.Port.data).1 % 65536)).1
        (env.New tr (env.ParseIP mhcfg.Ip) ((ParseUint mhcfg.Port.data).1 % 65536)).2])
  | none =>
    Outcome.returned
      ({ name := "", ip := env.ParseIP mhcfg.Ip,
         port := (ParseUint mhcfg.Port.data).1 % 65536,
         c := (env.New tr (env.ParseIP mhcfg.Ip)
                ((ParseUint mhcfg.Port.data).1 % 65536)).1 },
       { filter := "light/" ++ mhcfg.Name ++ "/#",
         mh := { name := "", ip := env.ParseIP mhcfg.Ip,
                 port := (ParseUint mhcfg.Port.data).1 % 65536,
                 c := (env.New tr (env.ParseIP mhcfg.Ip)
                        ((ParseUint mhcfg.Port.data).1 % 65536)).1 } })
      (tr ++ [Event.New (env.ParseIP mhcfg.Ip) ((ParseUint mhcfg.Port.data).1 % 65536)
        (env.New tr (env.ParseIP mhcfg.Ip) ((ParseUint mhcfg.Port.data).1 % 65536)).1
        (env.New tr (env.ParseIP mhcfg.Ip) ((ParseUint mhcfg.Port.data).1 % 65536)).2])

/-- The running daemon: the subscriptions of the broker client and the slice `mhctrls`
of `main`. -/
structure Daemon where
  routes : List Route
  mhctrls : List MHController
  deriving DecidableEq, Repr

/-- The loop of `main` over `cfg.Controllers`. -/
def addControllers (env : Env) :
    List MHControllerConfig → Daemon → List Event → Outcome Daemon
  | [], d, tr => Outcome.returned d tr
  | c :: rest, d, tr =>
    match addController env c tr with
    | Outcome.exited code tr1 => Outcome.exited code tr1
    | Outcome.returned (mh, r) tr1 =>
      addControllers env rest
        { routes := d.routes ++ [r], mhctrls := d.mhctrls ++ [mh] } tr1

/-- The teardown loop of `main`: `mh.c.Close()` for every element of `mhctrls`. -/
def closeAll (mhctrls : List MHController) (tr : List Event) : List Event :=
  tr ++ mhctrls.map (fun mh => Event.Close mh.c)

/-! ## The broker client -/

/-- The levels of a topic or of a filter: the segments between the `/`. -/
def splitLevels : List Char → List (List Char)
  | [] => [[]]
  | c :: cs =>
    if c = '/' then [] :: splitLevels cs
    else
      match splitLevels cs with
      | [] => [[c]]
      | l :: ls => (c :: l) :: ls

/-- Modelled from the spec: the topic filter matching of the broker client, which is not
part of the repository (levels separated by `/`, `#` matches all remaining levels, the
parent level included, `+` matches one level). -/
def matchLevels : List (List Char) → List (List Char) → Bool
  | [], topic => topic.isEmpty
  | r :: _, [] => r == ['#']
  | r :: rs, t :: ts =>
    if r = ['#'] then true
    else if r = ['+'] ∨ r = t then matchLevels rs ts
    else false

/-- Modelled from the spec: does a subscription with this filter receive a message on this
topic? -/
def routeIncludesTopic (filter topic : String) : Bool :=
  matchLevels (splitLevels filter.data) (splitLevels topic.data)

/-- Modelled from the spec: the broker client hands a message to the handler of every
subscription whose filter matches the topic, one handler after the other. -/
def deliver (env : Env) (msg : Message) : List Route → List Event → Outcome (List Route)
  | [], tr => Outcome.returned [] tr
  | r :: rs, tr =>
    if routeIncludesTopic r.filter msg.Topic then
      match mqttMessageHandler env r.mh msg tr with
      | Outcome.exited code tr1 => Outcome.exited code tr1
      | Outcome.returned mh1 tr1 =>
        match deliver env msg rs tr1 with
        | Outcome.exited code tr2 => Outcome.exited code tr2
        | Outcome.returned rs1 tr2 => Outcome.returned ({ r with mh := mh1 } :: rs1) tr2
    else
      match deliver env msg rs tr with
      | Outcome.exited code tr2 => Outcome.exited code tr2
      | Outcome.returned rs1 tr2 => Outcome.returned (r :: rs1) tr2

/-- The messages handled while `mainloop` waits for the signal. -/
def deliverAll (env : Env) : List Message → Daemon → List Event → Outcome Daemon
  | [], d, tr => Outcome.returned d tr
  | m :: ms, d, tr =>
    match deliver env m d.routes tr with
    | Outcome.exited code tr1 => Outcome.exited code tr1
    | Outcome.returned rs tr1 => deliverAll env ms { d with routes := rs } tr1

/-- The function `main` from the device loop on: the subscriptions are set up, the
messages are handled, the teardown loop closes the connections of `mhctrls`. -/
def main (env : Env) (cfgs : List MHControllerConfig) (msgs : List Message) :
    Outcome Daemon :=
  match addControllers env cfgs { routes := [], mhctrls := [] } [] with
  | Outcome.exited code tr => Outcome.exited code tr
  | Outcome.returned d tr =>
    match deliverAll env msgs d tr with
    | Outcome.exited code tr1 => Outcome.exited code tr1
    | Outcome.returned d1 tr1 => Outcome.returned d1 (closeAll d1.mhctrls tr1)

/-! ## Sample environments -/

/-- A device whose connection number 0 is dead: every setter on it fails, every other
connection works; `magichome.New` numbers the connections by the count of calls made
before. -/
def envDead0 : Env :=
  { call := fun _ c _ => if c = 0 then some (GoError.dev 1) else none
    New := fun tr _ _ => (tr.length, none)
    ParseIP := fun _ => [10, 0, 0, 5] }

/-- A device that is gone: every setter fails and `magichome.New` fails. -/
def envGone : Env :=
  { call := fun _ _ _ => some (GoError.dev 1)
    New := fun _ _ _ => (0, some (GoError.dev 2))
    ParseIP := fun _ => [10, 0, 0, 5] }

/-- A healthy device: every call succeeds; `magichome.New` numbers the connections from
1 on by the count of calls made before. -/
def envOk : Env :=
  { call := fun _ _ _ => none
    New := fun tr _ _ => (tr.length + 1, none)
    ParseIP := fun _ => [10, 0, 0, 5] }

/-- The kitchen session of the scenarios, on connection 0. -/
def kitchen : MHController :=
  { name := "", ip := [10, 0, 0, 5], port := 5577, c := 0 }

/-! ## The matcher against the words of a pattern -/

theorem matchStar_iff (a : Atom) (k : List Char → Bool) (t : List Char) :
    matchStar a k t = true ↔
      ∃ u v, t = u ++ v ∧ (∀ x ∈ u, a.accepts x = true) ∧ k v = true := by
  induction t with
  | nil =>
    constructor
    · intro h
      exact ⟨[], [], rfl, by simp, by simpa [matchStar] using h⟩
    · rintro ⟨u, v, huv, -, hk⟩
      have hv : v = [] := by
        cases u with
        | nil => simpa using huv.symm
        | cons x u => simp at huv
      subst hv
      simpa [matchStar] using hk
  | cons x xs ih =>
    constructor
    · intro h
      simp only [matchStar, Bool.or_eq_true, Bool.and_eq_true] at h
      rcases h with h | ⟨hx, h⟩
      · exact ⟨[], x :: xs, rfl, by simp, h⟩
      · obtain ⟨u, v, huv, hu, hk⟩ := ih.mp h
        refine ⟨x :: u, v, by simp [huv], ?_, hk⟩
        intro y hy
        rcases List.mem_cons.mp hy with rfl | hy
        · exact hx
        · exact hu y hy
    · rintro ⟨u, v, huv, hu, hk⟩
      simp only [matchStar, Bool.or_eq_true, Bool.and_eq_true]
      cases u with
      | nil =>
        left
        simp only [List.nil_append] at huv
        rw [huv]
        exact hk
      | cons y u =>
        right
        simp only [List.cons_append, List.cons.injEq] at huv
        obtain ⟨rfl, hxs⟩ := huv
        exact ⟨hu x (List.mem_cons_self _ _),
          ih.mpr ⟨u, v, hxs, fun z hz => hu z (List.mem_cons_of_mem _ hz), hk⟩⟩

theorem matchHere_iff (re : Regexp) (t : List Char) :
    matchHere re t = true ↔ ∃ m post, t = m ++ post ∧ Lang re m := by
  induction re generalizing t with
  | nil =>
    simp only [matchHere, Lang, true_iff]
    exact ⟨[], t, rfl, rfl⟩
  | cons p re ih =>
    cases p with
    | one a =>
      cases t with
      | nil =>
        simp only [matchHere, Lang, Bool.false_eq_true, false_iff]
        rintro ⟨m, post, h, x, m', hm, -, -⟩
        subst hm
        simp at h
      | cons x xs =>
        simp only [matchHere, Lang, Bool.and_eq_true]
        constructor
        · rintro ⟨hx, h⟩
          obtain ⟨m, post, hxs, hm⟩ := (ih xs).mp h
          exact ⟨x :: m, post, by simp [hxs], x, m, rfl, hx, hm⟩
        · rintro ⟨m, post, h, y, m', hm, hy, hl⟩
          subst hm
          simp only [List.cons_append, List.cons.injEq] at h
          obtain ⟨rfl, hxs⟩ := h
          exact ⟨hy, (ih xs).mpr ⟨m', post, hxs, hl⟩⟩
    | star a =>
      simp only [matchHere, Lang]
      rw [matchStar_iff]
      constructor
      · rintro ⟨u, v, huv, hu, hk⟩
        obtain ⟨m, post, hv, hm⟩ := (ih v).mp hk
        exact ⟨u ++ m, post, by simp [huv, hv], u, m, rfl, hu, hm⟩
      · rintro ⟨m, post, h, u, v, hm, hu, hl⟩
        exact ⟨u, v ++ post, by simp [h, hm], hu, (ih _).mpr ⟨v, post, rfl, hl⟩⟩

theorem matchAnywhere_iff (re : Regexp) (t : List Char) :
    matchAnywhere re t = true ↔ ∃ pre m post, t = pre ++ m ++ post ∧ Lang re m := by
  induction t with
  | nil =>
    simp only [matchAnywhere]
    rw [matchHere_iff]
    constructor
    · rintro ⟨m, post, h, hm⟩
      exact ⟨[], m, post, by simpa using h, hm⟩
    · rintro ⟨pre, m, post, h, hm⟩
      have h' := h.symm
      simp only [List.append_eq_nil] at h'
      obtain ⟨⟨-, rfl⟩, rfl⟩ := h'
      exact ⟨[], [], rfl, hm⟩
  | cons x xs ih =>
    simp only [matchAnywhere, Bool.or_eq_true]
    rw [matchHere_iff, ih]
    constructor
    · rintro (⟨m, post, h, hm⟩ | ⟨pre, m, post, h, hm⟩)
      · exact ⟨[], m, post, by simpa using h, hm⟩
      · exact ⟨x :: pre, m, post, by simp [h], hm⟩
    · rintro ⟨pre, m, post, h, hm⟩
      cases pre with
      | nil => exact Or.inl ⟨m, post, by simpa using h, hm⟩
      | cons y pre =>
        simp only [List.cons_append, List.cons.injEq] at h
        exact Or.inr ⟨pre, m, post, h.2, hm⟩

theorem lang_reg_on (m : List Char) :
    Lang (Compile "light/.*/on") m ↔
      ∃ mid, m = "light/".data ++ mid ++ "/on".data ∧ '\n' ∉ mid := by
  have hc : Compile "light/.*/on" =
      [Piece.one (Atom.chr 'l'), Piece.one (Atom.chr 'i'), Piece.one (Atom.chr 'g'),
       Piece.one (Atom.chr 'h'), Piece.one (Atom.chr 't'), Piece.one (Atom.chr '/'),
       Piece.star Atom.dot, Piece.one (Atom.chr '/'), Piece.one (Atom.chr 'o'),
       Piece.one (Atom.chr 'n')] := by decide
  rw [hc]
  simp only [Lang, Atom.accepts, beq_iff_eq, bne_iff_ne, ne_eq]
  constructor
  · rintro ⟨_, _, rfl, rfl, _, _, rfl, rfl, _, _, rfl, rfl, _, _, rfl, rfl,
      _, _, rfl, rfl, _, _, rfl, rfl, u, _, rfl, hu, _, _, rfl, rfl, _, _, rfl, rfl,
      _, _, rfl, rfl, rfl⟩
    exact ⟨u, by simp, fun h => hu _ h rfl⟩
  · rintro ⟨mid, rfl, hmid⟩
    refine ⟨_, _, rfl, rfl, _, _, rfl, rfl, _, _, rfl, rfl, _, _, rfl, rfl,
      _, _, rfl, rfl, _, _, rfl, rfl, mid, _, rfl, ?_, _, _, rfl, rfl, _, _, rfl, rfl,
      _, _, rfl, rfl, rfl⟩
    intro x hx hxn
    exact hmid (hxn ▸ hx)

theorem lang_reg_value (m : List Char) :
    Lang (Compile "light/.*/value") m ↔
      ∃ mid, m = "light/".data ++ mid ++ "/value".data ∧ '\n' ∉ mid := by
  have hc : Compile "light/.*/value" =
      [Piece.one (Atom.chr 'l'), Piece.one (Atom.chr 'i'), Piece.one (Atom.chr 'g'),
       Piece.one (Atom.chr 'h'), Piece.one (Atom.chr 't'), Piece.one (Atom.chr '/'),
       Piece.star Atom.dot, Piece.one (Atom.chr '/'), Piece.one (Atom.chr 'v'),
       Piece.one (Atom.chr 'a'), Piece.one (Atom.chr 'l'), Piece.one (Atom.chr 'u'),
       Piece.one (Atom.chr 'e')] := by decide
  rw [hc]
  simp only [Lang, Atom.accepts, beq_iff_eq, bne_iff_ne, ne_eq]
  constructor
  · rintro ⟨_, _, rfl, rfl, _, _, rfl, rfl, _, _, rfl, rfl, _, _, rfl, rfl,
      _, _, rfl, rfl, _, _, rfl, rfl, u, _, rfl, hu, _, _, rfl, rfl, _, _, rfl, rfl,
      _, _, rfl, rfl, _, _, rfl, rfl, _, _, rfl, rfl, _, _, rfl, rfl, rfl⟩
    exact ⟨u, by simp, fun h => hu _ h rfl⟩
  · rintro ⟨mid, rfl, hmid⟩
    refine ⟨_, _, rfl, rfl, _, _, rfl, rfl, _, _, rfl, rfl, _, _, rfl, rfl,
      _, _, rfl, rfl, _, _, rfl, rfl, mid, _, rfl, ?_, _, _, rfl, rfl, _, _, rfl, rfl,
      _, _, rfl, rfl, _, _, rfl, rfl, _, _, rfl, rfl, _, _, rfl, rfl, rfl⟩
    intro x hx hxn
    exact hmid (hxn ▸ hx)

/-- The pattern `light/.*/on` matches exactly the topics in which it occurs. -/
theorem matchString_on_iff (topic : String) :
    MatchString (Compile "light/.*/on") topic = true ↔ Occurs "/on" topic := by
  unfold MatchString Occurs
  rw [matchAnywhere_iff]
  constructor
  · rintro ⟨pre, m, post, h, hm⟩
    obtain ⟨mid, rfl, hmid⟩ := (lang_reg_on m).mp hm
    exact ⟨pre, mid, post, by simp [h], hmid⟩
  · rintro ⟨pre, mid, post, h, hmid⟩
    exact ⟨pre, _, post, by simp [h], (lang_reg_on _).mpr ⟨mid, rfl, hmid⟩⟩

/-- The pattern `light/.*/value` matches exactly the topics in which it occurs. -/
theorem matchString_value_iff (topic : String) :
    MatchString (Compile "light/.*/value") topic = true ↔ Occurs "/value" topic := by
  unfold MatchString Occurs
  rw [matchAnywhere_iff]
  constructor
  · rintro ⟨pre, m, post, h, hm⟩
    obtain ⟨mid, rfl, hmid⟩ := (lang_reg_value m).mp hm
    exact ⟨pre, mid, post, by simp [h], hmid⟩
  · rintro ⟨pre, mid, post, h, hmid⟩
    exact ⟨pre, _, post, by simp [h], (lang_reg_value _).mpr ⟨mid, rfl, hmid⟩⟩

/-! ## Topics of the shape `light/<name>/<suffix>` -/

theorem append_cons_inj_of_not_mem {x : Char} :
    ∀ (a c b d : List Char), x ∉ a → x ∉ c → a ++ x :: b = c ++ x :: d → a = c ∧ b = d := by
  intro a
  induction a with
  | nil =>
    intro c b d _ hc h
    cases c with
    | nil => simpa using h
    | cons y c =>
      simp only [List.nil_append, List.cons_append, List.cons.injEq] at h
      exact absurd (List.mem_cons.mpr (Or.inl h.1)) hc
  | cons z a ih =>
    intro c b d ha hc h
    cases c with
    | nil =>
      simp only [List.nil_append, List.cons_append, List.cons.injEq] at h
      exact absurd (List.mem_cons.mpr (Or.inl h.1.symm)) ha
    | cons y c =>
      simp only [List.cons_append, List.cons.injEq] at h
      obtain ⟨rfl, h⟩ := h
      obtain ⟨rfl, rfl⟩ := ih c b d (fun hm => ha (List.mem_cons_of_mem _ hm))
        (fun hm => hc (List.mem_cons_of_mem _ hm)) h
      exact ⟨rfl, rfl⟩

/-- In a topic `light/<n>/<s>` whose name and suffix word have no `/`, the only
occurrence of `light/ .. /<s'>` is the whole topic: the name has no line feed and the
suffix word starts with `s'`. -/
theorem occurs_shape (n s s' pre mid post : List Char) (hn : '/' ∉ n) (hs : '/' ∉ s)
    (h : ['l', 'i', 'g', 'h', 't', '/'] ++ n ++ '/' :: s =
      pre ++ ['l', 'i', 'g', 'h', 't', '/'] ++ mid ++ '/' :: s' ++ post) :
    pre = [] ∧ mid = n ∧ s = s' ++ post := by
  have hcount := congrArg (List.count '/') h
  simp only [List.count_append, List.count_cons, List.count_nil, beq_self_eq_true,
    if_true] at hcount
  have hn0 : List.count '/' n = 0 := List.count_eq_zero.mpr hn
  have hs0 : List.count '/' s = 0 := List.count_eq_zero.mpr hs
  have e1 : (('l' == '/') = false) := by decide
  have e2 : (('i' == '/') = false) := by decide
  have e3 : (('g' == '/') = false) := by decide
  have e4 : (('h' == '/') = false) := by decide
  have e5 : (('t' == '/') = false) := by decide
  simp only [e1, e2, e3, e4, e5, hn0, hs0] at hcount
  have hpre : '/' ∉ pre := List.count_eq_zero.mp (by omega)
  have hmid : '/' ∉ mid := List.count_eq_zero.mp (by omega)
  have h1 : ['l', 'i', 'g', 'h', 't'] ++ '/' :: (n ++ '/' :: s) =
      (pre ++ ['l', 'i', 'g', 'h', 't']) ++ '/' :: (mid ++ '/' :: (s' ++ post)) := by
    simpa using h
  have hl : '/' ∉ ['l', 'i', 'g', 'h', 't'] := by decide
  have hpl : '/' ∉ pre ++ ['l', 'i', 'g', 'h', 't'] := by
    intro hm
    rcases List.mem_append.mp hm with hm | hm
    · exact hpre hm
    · exact hl hm
  obtain ⟨h2, h3⟩ := append_cons_inj_of_not_mem _ _ _ _ hl hpl h1
  obtain ⟨h4, h5⟩ := append_cons_inj_of_not_mem _ _ _ _ hn hmid h3
  refine ⟨?_, h4.symm, h5⟩
  have hlen := congrArg List.length h2
  simp only [List.length_append, List.length_cons, List.length_nil] at hlen
  exact List.length_eq_zero.mp (by omega)

theorem occurs_same (s : String) (n : String) (hl : '\n' ∉ n.data) :
    Occurs s ("light/" ++ n ++ s) :=
  ⟨[], n.data, [], by simp [String.data_append], hl⟩

theorem not_occurs_on_value (n : String) (hn : '/' ∉ n.data) :
    ¬ Occurs "/on" ("light/" ++ n ++ "/value") := by
  rintro ⟨pre, mid, post, h, -⟩
  have h' : ['l', 'i', 'g', 'h', 't', '/'] ++ n.data ++ '/' :: ['v', 'a', 'l', 'u', 'e'] =
      pre ++ ['l', 'i', 'g', 'h', 't', '/'] ++ mid ++ '/' :: ['o', 'n'] ++ post := by
    simpa [String.data_append] using h
  obtain ⟨-, -, h3⟩ := occurs_shape _ _ _ _ _ _ hn (by decide) h'
  simp at h3

theorem matchString_on_shape (n : String) (hl : '\n' ∉ n.data) :
    MatchString (Compile "light/.*/on") ("light/" ++ n ++ "/on") = true :=
  (matchString_on_iff _).mpr (occurs_same "/on" n hl)

theorem matchString_value_shape (n : String) (hl : '\n' ∉ n.data) :
    MatchString (Compile "light/.*/value") ("light/" ++ n ++ "/value") = true :=
  (matchString_value_iff _).mpr (occurs_same "/value" n hl)

theorem matchString_on_value_shape (n : String) (hn : '/' ∉ n.data) :
    MatchString (Compile "light/.*/on") ("light/" ++ n ++ "/value") = false := by
  cases h : MatchString (Compile "light/.*/on") ("light/" ++ n ++ "/value") with
  | false => rfl
  | true => exact absurd ((matchString_on_iff _).mp h) (not_occurs_on_value n hn)

/-! ## `processMessage` -/

/-- C1, as amended: on the topic `light/<n>/on`, for a name `n` without `/` and without
a line feed, `processMessage` makes exactly one device call, `SetState(On)` when the
payload is exactly `True` and `SetState(Off)` otherwise, and returns the result of that
call. -/
theorem power_command (env : Env) (c : Controller) (tr : List Event) (n p : String)
    (_hn : '/' ∉ n.data) (hl : '\n' ∉ n.data) :
    processMessage env c ⟨"light/" ++ n ++ "/on", p⟩ tr =
      (env.call tr c (Command.SetState (if p = "True" then State.On else State.Off)),
       tr ++ [Event.call c (Command.SetState (if p = "True" then State.On else State.Off))
         (env.call tr c (Command.SetState (if p = "True" then State.On else State.Off)))]) := by
  unfold processMessage
  simp only [matchString_on_shape n hl, if_true]
  by_cases hp : p = "True" <;> simp [hp, invoke]

/-- C1, an instance of the amended statement: the kitchen light is switched on. -/
theorem power_command_witness :
    processMessage envOk 0 ⟨"light/" ++ "kitchen" ++ "/on", "True"⟩ [] =
      (none, [Event.call 0 (Command.SetState State.On) none]) :=
  power_command envOk 0 [] "kitchen" "True" (by decide) (by decide)

/-- C1 fails as stated: the name consisting of a line feed has no `/`, yet on the topic
`light/<name>/on` no device call is made. -/
theorem linefeed_name_no_power_call :
    '/' ∉ "\n".data ∧
    processMessage envOk 0 ⟨"light/" ++ "\n" ++ "/on", "True"⟩ [] = (none, []) := by
  decide

/-- C2, as amended: on the topic `light/<n>/value`, for a name `n` without `/` and
without a line feed and a payload that `Atoi` parses to `v`, `processMessage` makes
exactly one device call, `SetColor` with R = G = B = v mod 256 and W = 0; the channel is
`v` itself for `v` from 0 to 255 and the wrapped value (never the saturated one) outside. -/
theorem brightness_command (env : Env) (c : Controller) (tr : List Event) (n p : String)
    (v : Int) (hn : '/' ∉ n.data) (hl : '\n' ∉ n.data) (hv : Atoi p = (v, none)) :
    processMessage env c ⟨"light/" ++ n ++ "/value", p⟩ tr =
      (env.call tr c (Command.SetColor ⟨(v % 256).toNat, (v % 256).toNat, (v % 256).toNat, 0⟩),
       tr ++ [Event.call c
         (Command.SetColor ⟨(v % 256).toNat, (v % 256).toNat, (v % 256).toNat, 0⟩)
         (env.call tr c
           (Command.SetColor ⟨(v % 256).toNat, (v % 256).toNat, (v % 256).toNat, 0⟩))]) ∧
    ((v % 256).toNat : Int) = v % 256 ∧ (v % 256).toNat < 256 ∧
    (0 ≤ v → v ≤ 255 → ((v % 256).toNat : Int) = v) := by
  refine ⟨?_, ?_, ?_, ?_⟩
  · unfold processMessage
    simp only [matchString_on_value_shape n hn, matchString_value_shape n hl, hv, invoke]
    simp
  · omega
  · omega
  · intro h0 h1
    omega

/-- C2, instances of the amended statement: 300 wraps to 44 and -1 wraps to 255. -/
theorem brightness_command_witness :
    processMessage envOk 0 ⟨"light/" ++ "kitchen" ++ "/value", "300"⟩ [] =
      (none, [Event.call 0 (Command.SetColor ⟨44, 44, 44, 0⟩) none]) ∧
    processMessage envOk 0 ⟨"light/" ++ "kitchen" ++ "/value", "-1"⟩ [] =
      (none, [Event.call 0 (Command.SetColor ⟨255, 255, 255, 0⟩) none]) :=
  ⟨(brightness_command envOk 0 [] "kitchen" "300" 300 (by decide) (by decide)
      (by decide)).1.trans (by decide),
   (brightness_command envOk 0 [] "kitchen" "-1" (-1) (by decide) (by decide)
      (by decide)).1.trans (by decide)⟩

/-- C2 fails as stated: the name consisting of a line feed has no `/` and the payload
`128` parses, yet on the topic `light/<name>/value` no `SetColor` call is made. -/
theorem linefeed_name_no_color_call :
    '/' ∉ "\n".data ∧ Atoi "128" = (128, none) ∧
    processMessage envOk 0 ⟨"light/" ++ "\n" ++ "/value", "128"⟩ [] = (none, []) := by
  decide

/-- On a value topic a payload that `Atoi` rejects gives the parse error and no call. -/
theorem processMessage_decode_error (env : Env) (c : Controller) (tr : List Event)
    (n p : String) (w : Int) (e : NumError) (hn : '/' ∉ n.data) (hl : '\n' ∉ n.data)
    (hv : Atoi p = (w, some e)) :
    processMessage env c ⟨"light/" ++ n ++ "/value", p⟩ tr = (some (GoError.num e), tr) := by
  unfold processMessage
  simp only [matchString_on_value_shape n hn, matchString_value_shape n hl, hv]
  simp

/-- C4, as amended: on the topic `light/<n>/value`, for a name `n` without `/` and
without a line feed and a payload that `Atoi` does not parse, `processMessage` returns
the parse error and makes no device call. -/
theorem decode_error_no_command (env : Env) (c : Controller) (tr : List Event)
    (n p : String) (w : Int) (e : NumError) (hn : '/' ∉ n.data) (hl : '\n' ∉ n.data)
    (hv : Atoi p = (w, some e)) :
    processMessage env c ⟨"light/" ++ n ++ "/value", p⟩ tr = (some (GoError.num e), tr) :=
  processMessage_decode_error env c tr n p w e hn hl hv

/-- C4, an instance of the amended statement: the payload `abc` on the kitchen topic. -/
theorem decode_error_no_command_witness :
    processMessage envOk 0 ⟨"light/" ++ "kitchen" ++ "/value", "abc"⟩ [] =
      (some (GoError.num NumError.ErrSyntax), []) :=
  decode_error_no_command envOk 0 [] "kitchen" "abc" 0 NumError.ErrSyntax
    (by decide) (by decide) (by decide)

/-- C4 fails as stated: the name consisting of a line feed has no `/` and the payload
`abc` does not parse, yet on the topic `light/<name>/value` no error is returned. -/
theorem linefeed_name_no_decode_error :
    '/' ∉ "\n".data ∧ Atoi "abc" = (0, some NumError.ErrSyntax) ∧
    (processMessage envOk 0 ⟨"light/" ++ "\n" ++ "/value", "abc"⟩ []).1 = none := by
  decide

/-- C3, as amended: for every topic in which neither `light/ .. /on` nor
`light/ .. /value` occurs (the patterns are searched anywhere in the topic, with no line
feed in between), `processMessage` makes no device call and returns no error, and the
handler returns with the session and the trace unchanged: no reconnect. -/
theorem no_match_no_call (env : Env) (mh : MHController) (msg : Message)
    (tr : List Event) (hon : ¬ Occurs "/on" msg.Topic) (hval : ¬ Occurs "/value" msg.Topic) :
    processMessage env mh.c msg tr = (none, tr) ∧
    mqttMessageHandler env mh msg tr = Outcome.returned mh tr := by
  have h1 : MatchString (Compile "light/.*/on") msg.Topic = false := by
    cases h : MatchString (Compile "light/.*/on") msg.Topic with
    | false => rfl
    | true => exact absurd ((matchString_on_iff _).mp h) hon
  have h2 : MatchString (Compile "light/.*/value") msg.Topic = false := by
    cases h : MatchString (Compile "light/.*/value") msg.Topic with
    | false => rfl
    | true => exact absurd ((matchString_value_iff _).mp h) hval
  have h3 : processMessage env mh.c msg tr = (none, tr) := by
    unfold processMessage
    simp [h1, h2]
  refine ⟨h3, ?_⟩
  unfold mqttMessageHandler
  rw [h3]

/-- C3, an instance of the amended statement: a colour topic of the kitchen is ignored. -/
theorem no_match_no_call_witness :
    processMessage envOk kitchen.c ⟨"light/kitchen/color", "True"⟩ [] = (none, []) ∧
    mqttMessageHandler envOk kitchen ⟨"light/kitchen/color", "True"⟩ [] =
      Outcome.returned kitchen [] :=
  no_match_no_call envOk kitchen ⟨"light/kitchen/color", "True"⟩ []
    (fun h => absurd ((matchString_on_iff _).mpr h) (by decide))
    (fun h => absurd ((matchString_value_iff _).mpr h) (by decide))

/-- C3 fails as stated: the topic `light/kitchen/online` ends neither in `/on` nor in
`/value`, yet `processMessage` makes a `SetState(Off)` call on it. -/
theorem online_topic_sets_state :
    ¬ ("/on".data <:+ "light/kitchen/online".data) ∧
    ¬ ("/value".data <:+ "light/kitchen/online".data) ∧
    processMessage envOk 0 ⟨"light/kitchen/online", "1"⟩ [] =
      (none, [Event.call 0 (Command.SetState State.Off) none]) := by
  decide

/-- C10: on every topic in which both patterns occur, `processMessage` takes the power
branch only: exactly one `SetState` call, chosen by whether the payload is `True`; the
error returned is the result of that call, and no `SetColor` call is made. -/
theorem power_branch_first (env : Env) (c : Controller) (msg : Message)
    (tr : List Event) (hon : Occurs "/on" msg.Topic) (_hval : Occurs "/value" msg.Topic) :
    processMessage env c msg tr =
      (env.call tr c
        (Command.SetState (if msg.Payload = "True" then State.On else State.Off)),
       tr ++ [Event.call c
         (Command.SetState (if msg.Payload = "True" then State.On else State.Off))
         (env.call tr c
           (Command.SetState (if msg.Payload = "True" then State.On else State.Off)))]) := by
  unfold processMessage
  simp only [(matchString_on_iff _).mpr hon, if_true]
  by_cases hp : msg.Payload = "True" <;> simp [hp, invoke]

/-- C10, instances: an integer payload on `light/a/on/value` and on `light/a/value/on`
switches the light off and sets no colour. -/
theorem power_branch_first_witness :
    processMessage envOk 0 ⟨"light/a/on/value", "128"⟩ [] =
      (none, [Event.call 0 (Command.SetState State.Off) none]) ∧
    processMessage envOk 0 ⟨"light/a/value/on", "abc"⟩ [] =
      (none, [Event.call 0 (Command.SetState State.Off) none]) :=
  ⟨power_branch_first envOk 0 ⟨"light/a/on/value", "128"⟩ []
      ((matchString_on_iff _).mp (by decide)) ((matchString_value_iff _).mp (by decide)),
   power_branch_first envOk 0 ⟨"light/a/value/on", "abc"⟩ []
      ((matchString_on_iff _).mp (by decide)) ((matchString_value_iff _).mp (by decide))⟩

/-! ## The message handler -/

/-- The command of a message does not depend on the connection, on the device or on the
trace: if `processMessage` made exactly the call `cmd` once, it makes the call `cmd` on
any other connection. -/
theorem processMessage_same_command (env : Env) (c : Controller) (msg : Message)
    (tr : List Event) (r r' : Option GoError) (cmd : Command)
    (h : processMessage env c msg tr = (r, tr ++ [Event.call c cmd r'])) :
    ∀ (env' : Env) (c' : Controller) (tr' : List Event),
      processMessage env' c' msg tr' = invoke env' c' cmd tr' := by
  intro env' c' tr'
  unfold processMessage at h ⊢
  by_cases h1 : MatchString (Compile "light/.*/on") msg.Topic = true
  · simp only [h1, if_true] at h ⊢
    by_cases hp : msg.Payload = "True"
    · simp only [hp, if_true, invoke, Prod.mk.injEq, List.append_cancel_left_eq,
        List.cons.injEq, Event.call.injEq, and_true, true_and] at h ⊢
      rw [← h.2.1]
      simp
    · simp only [hp, if_false, invoke, Prod.mk.injEq, List.append_cancel_left_eq,
        List.cons.injEq, Event.call.injEq, and_true, true_and] at h ⊢
      rw [← h.2.1]
      simp
  · simp only [h1, Bool.false_eq_true, if_false] at h ⊢
    by_cases h2 : MatchString (Compile "light/.*/value") msg.Topic = true
    · simp only [h2, if_true] at h ⊢
      rcases hv : Atoi msg.Payload with ⟨v, _ | e⟩
      · simp only [hv, invoke, Prod.mk.injEq, List.append_cancel_left_eq,
          List.cons.injEq, Event.call.injEq, and_true, true_and] at h ⊢
        rw [← h.2.1]
        simp
      · simp [hv] at h
    · simp [h2] at h

/-- C6: when the command of a message fails on the session's current connection and
`magichome.New` then succeeds, the handler opens exactly one new connection (to the ip
and port of the session), closes the old one, puts the new one into the session and
applies the same command exactly once to it; whatever that retry returns, the handler
returns and nothing more happens. -/
theorem reconnect_once (env : Env) (mh : MHController) (msg : Message)
    (tr : List Event) (cmd : Command) (e : GoError) (c' : Controller)
    (hfail : processMessage env mh.c msg tr =
      (some e, tr ++ [Event.call mh.c cmd (some e)]))
    (hnew : env.New (tr ++ [Event.call mh.c cmd (some e)]) mh.ip mh.port = (c', none)) :
    mqttMessageHandler env mh msg tr =
      Outcome.returned { name := mh.name, ip := mh.ip, port := mh.port, c := c' }
        (tr ++ [Event.call mh.c cmd (some e), Event.New mh.ip mh.port c' none,
          Event.Close mh.c,
          Event.call c' cmd
            (env.call (tr ++ [Event.call mh.c cmd (some e), Event.New mh.ip mh.port c' none,
              Event.Close mh.c]) c' cmd)]) := by
  have hsame := processMessage_same_command env mh.c msg tr _ _ cmd hfail
  unfold mqttMessageHandler
  rw [hfail]
  simp only [hnew, checkError, hsame, invoke, List.append_assoc, List.singleton_append,
    List.cons_append, List.nil_append]

/-- C6, an instance: connection 0 of the kitchen is dead, connection 1 is opened and the
light is switched on through it. -/
theorem reconnect_once_witness :
    mqttMessageHandler envDead0 kitchen ⟨"light/kitchen/on", "True"⟩ [] =
      Outcome.returned { name := "", ip := [10, 0, 0, 5], port := 5577, c := 1 }
        [Event.call 0 (Command.SetState State.On) (some (GoError.dev 1)),
         Event.New [10, 0, 0, 5] 5577 1 none, Event.Close 0,
         Event.call 1 (Command.SetState State.On) none] :=
  (reconnect_once envDead0 kitchen ⟨"light/kitchen/on", "True"⟩ []
    (Command.SetState State.On) (GoError.dev 1) 1 (by decide) (by decide)).trans (by decide)

/-- C7, as amended: when the command of a message fails and `magichome.New` fails too,
the handler closes the old connection and the process exits with status 1
(`checkError`); the command is not retried and the session is not changed. -/
theorem reconnect_failure_exits (env : Env) (mh : MHController) (msg : Message)
    (tr : List Event) (cmd : Command) (e e2 : GoError) (c' : Controller)
    (hfail : processMessage env mh.c msg tr =
      (some e, tr ++ [Event.call mh.c cmd (some e)]))
    (hnew : env.New (tr ++ [Event.call mh.c cmd (some e)]) mh.ip mh.port = (c', some e2)) :
    mqttMessageHandler env mh msg tr =
      Outcome.exited 1
        (tr ++ [Event.call mh.c cmd (some e), Event.New mh.ip mh.port c' (some e2),
          Event.Close mh.c]) := by
  unfold mqttMessageHandler
  rw [hfail]
  simp only [hnew, checkError, List.append_assoc, List.singleton_append,
    List.cons_append, List.nil_append]

/-- C7, an instance of the amended statement: the kitchen device is gone. -/
theorem reconnect_failure_exits_witness :
    mqttMessageHandler envGone kitchen ⟨"light/kitchen/value", "128"⟩ [] =
      Outcome.exited 1
        [Event.call 0 (Command.SetColor ⟨128, 128, 128, 0⟩) (some (GoError.dev 1)),
         Event.New [10, 0, 0, 5] 5577 0 (some (GoError.dev 2)), Event.Close 0] :=
  (reconnect_failure_exits envGone kitchen ⟨"light/kitchen/value", "128"⟩ []
    (Command.SetColor ⟨128, 128, 128, 0⟩) (GoError.dev 1) (GoError.dev 2) 0
    (by decide) (by decide)).trans (by decide)

/-- C7 fails as stated: the command fails, the reconnect fails, and the handler does not
return: the process exits with status 1. -/
theorem handler_exits_process :
    (processMessage envGone kitchen.c ⟨"light/kitchen/on", "True"⟩ []).1 =
      some (GoError.dev 1) ∧
    (envGone.New [Event.call 0 (Command.SetState State.On) (some (GoError.dev 1))]
      kitchen.ip kitchen.port).2 = some (GoError.dev 2) ∧
    (∀ (mh : MHController) (tr : List Event),
      mqttMessageHandler envGone kitchen ⟨"light/kitchen/on", "True"⟩ [] ≠
        Outcome.returned mh tr) ∧
    mqttMessageHandler envGone kitchen ⟨"light/kitchen/on", "True"⟩ [] =
      Outcome.exited 1
        [Event.call 0 (Command.SetState State.On) (some (GoError.dev 1)),
         Event.New [10, 0, 0, 5] 5577 0 (some (GoError.dev 2)), Event.Close 0] := by
  have h : mqttMessageHandler envGone kitchen ⟨"light/kitchen/on", "True"⟩ [] =
      Outcome.exited 1
        [Event.call 0 (Command.SetState State.On) (some (GoError.dev 1)),
         Event.New [10, 0, 0, 5] 5577 0 (some (GoError.dev 2)), Event.Close 0] := by
    decide
  refine ⟨by decide, by decide, ?_, h⟩
  intro mh tr
  rw [h]
  exact fun hne => Outcome.noConfusion hne

/-- What the handler does with a payload that is not an integer: when `magichome.New`
succeeds, the old connection is closed and replaced by a new one. -/
theorem handler_decode_error (env : Env) (mh : MHController) (tr : List Event)
    (n p : String) (w : Int) (e : NumError) (c' : Controller)
    (hn : '/' ∉ n.data) (hl : '\n' ∉ n.data) (hv : Atoi p = (w, some e))
    (hnew : env.New tr mh.ip mh.port = (c', none)) :
    mqttMessageHandler env mh ⟨"light/" ++ n ++ "/value", p⟩ tr =
      Outcome.returned { name := mh.name, ip := mh.ip, port := mh.port, c := c' }
        (tr ++ [Event.New mh.ip mh.port c' none, Event.Close mh.c]) := by
  unfold mqttMessageHandler
  rw [processMessage_decode_error env mh.c tr n p w e hn hl hv]
  simp only [hnew, checkError]
  rw [processMessage_decode_error env c' _ n p w e hn hl hv]

/-- C5, the code at the failing input: on `light/kitchen/value` with payload `abc` the
handler of a healthy device opens connection 1, closes connection 0 and leaves the
session on connection 1; when the device cannot be reached the process exits. -/
theorem decode_error_reconnects :
    Atoi "abc" = (0, some NumError.ErrSyntax) ∧
    mqttMessageHandler envOk kitchen ⟨"light/kitchen/value", "abc"⟩ [] =
      Outcome.returned { name := "", ip := [10, 0, 0, 5], port := 5577, c := 1 }
        [Event.New [10, 0, 0, 5] 5577 1 none, Event.Close 0] ∧
    mqttMessageHandler envGone kitchen ⟨"light/kitchen/value", "abc"⟩ [] =
      Outcome.exited 1
        [Event.New [10, 0, 0, 5] 5577 0 (some (GoError.dev 2)), Event.Close 0] := by
  decide

/-! ## Subscriptions and teardown -/

theorem splitLevels_of_not_mem : ∀ (a : List Char), '/' ∉ a → splitLevels a = [a] := by
  intro a
  induction a with
  | nil => intro _; rfl
  | cons x a ih =>
    intro h
    have hx : x ≠ '/' := fun hx => h (hx ▸ List.mem_cons_self _ _)
    have ha : '/' ∉ a := fun hm => h (List.mem_cons_of_mem _ hm)
    simp [splitLevels, hx, ih ha]

theorem splitLevels_append : ∀ (a b : List Char), '/' ∉ a →
    splitLevels (a ++ '/' :: b) = a :: splitLevels b := by
  intro a
  induction a with
  | nil => intro b _; simp [splitLevels]
  | cons x a ih =>
    intro b h
    have hx : x ≠ '/' := fun hx => h (hx ▸ List.mem_cons_self _ _)
    have ha : '/' ∉ a := fun hm => h (List.mem_cons_of_mem _ hm)
    simp [splitLevels, hx, ih b ha]

/-- The filter of a device named `B` does not match the power topic of a device named
`A`, for distinct names without `/` when `B` is not a wildcard. -/
theorem routeIncludesTopic_other (A B : String) (hAB : A ≠ B) (hA : '/' ∉ A.data)
    (hB : '/' ∉ B.data) (hplus : B ≠ "+") (hhash : B ≠ "#") :
    routeIncludesTopic ("light/" ++ B ++ "/#") ("light/" ++ A ++ "/on") = false := by
  have hl : '/' ∉ ['l', 'i', 'g', 'h', 't'] := by decide
  have e1 : ("light/" ++ B ++ "/#").data =
      ['l', 'i', 'g', 'h', 't'] ++ '/' :: (B.data ++ '/' :: ['#']) := by
    simp [String.data_append]
  have e2 : ("light/" ++ A ++ "/on").data =
      ['l', 'i', 'g', 'h', 't'] ++ '/' :: (A.data ++ '/' :: ['o', 'n']) := by
    simp [String.data_append]
  have hB1 : B.data ≠ ['#'] := fun h => hhash (String.ext h)
  have hB2 : B.data ≠ ['+'] := fun h => hplus (String.ext h)
  have hB3 : B.data ≠ A.data := fun h => hAB (String.ext h.symm)
  unfold routeIncludesTopic
  rw [e1, e2, splitLevels_append _ _ hl, splitLevels_append _ _ hl,
    splitLevels_append _ _ hB, splitLevels_append _ _ hA]
  simp [matchLevels, hB1, hB2, hB3]

/-- C8, as amended: for distinct device names `A` and `B` that have no `/`, where `B` is
neither `+` nor `#`, the filter `addController` subscribes for `B` is `light/B/#`, it
does not match the topic `light/A/on`, and a message on that topic handed to the
subscription of `B` does not run its handler: the session of `B` and the trace are
unchanged. -/
theorem device_isolation (env : Env) (A B ip port p : String) (tr0 tr1 tr : List Event)
    (mh : MHController) (r : Route) (hAB : A ≠ B) (hA : '/' ∉ A.data) (hB : '/' ∉ B.data)
    (hplus : B ≠ "+") (hhash : B ≠ "#")
    (hadd : addController env ⟨B, ip, port⟩ tr0 = Outcome.returned (mh, r) tr1) :
    r.filter = "light/" ++ B ++ "/#" ∧ r.mh = mh ∧
    routeIncludesTopic r.filter ("light/" ++ A ++ "/on") = false ∧
    deliver env ⟨"light/" ++ A ++ "/on", p⟩ [r] tr = Outcome.returned [r] tr := by
  have hr : r.filter = "light/" ++ B ++ "/#" ∧ r.mh = mh := by
    unfold addController at hadd
    split at hadd
    · exact Outcome.noConfusion hadd
    · simp only [Outcome.returned.injEq, Prod.mk.injEq] at hadd
      obtain ⟨⟨h1, h2⟩, -⟩ := hadd
      subst h1 h2
      exact ⟨rfl, rfl⟩
  have hm : routeIncludesTopic r.filter ("light/" ++ A ++ "/on") = false := by
    rw [hr.1]
    exact routeIncludesTopic_other A B hAB hA hB hplus hhash
  refine ⟨hr.1, hr.2, hm, ?_⟩
  simp [deliver, hm]

/-- C8, an instance of the amended statement: a message for the kitchen does not reach
the hall. -/
theorem device_isolation_witness :
    deliver envOk ⟨"light/" ++ "kitchen" ++ "/on", "True"⟩
      [⟨"light/hall/#", { name := "", ip := [10, 0, 0, 5], port := 5577, c := 1 }⟩] [] =
    Outcome.returned
      [⟨"light/hall/#", { name := "", ip := [10, 0, 0, 5], port := 5577, c := 1 }⟩] [] :=
  (device_isolation envOk "kitchen" "hall" "10.0.0.6" "5577" "True" []
    [Event.New [10, 0, 0, 5] 5577 1 none] []
    { name := "", ip := [10, 0, 0, 5], port := 5577, c := 1 }
    ⟨"light/hall/#", { name := "", ip := [10, 0, 0, 5], port := 5577, c := 1 }⟩
    (by decide) (by decide) (by decide) (by decide) (by decide) (by decide)).2.2.2

/-- C8 fails as stated: the devices `a` and `+` are distinct, yet the subscription of
`+` matches the topic `light/a/on` and its handler makes a call on its own connection. -/
theorem wildcard_name_breaks_isolation :
    "a" ≠ "+" ∧ '/' ∉ "+".data ∧
    addController envOk ⟨"+", "10.0.0.6", "5577"⟩ [] =
      Outcome.returned
        ({ name := "", ip := [10, 0, 0, 5], port := 5577, c := 1 },
         ⟨"light/+/#", { name := "", ip := [10, 0, 0, 5], port := 5577, c := 1 }⟩)
        [Event.New [10, 0, 0, 5] 5577 1 none] ∧
    routeIncludesTopic ("light/" ++ "+" ++ "/#") ("light/" ++ "a" ++ "/on") = true ∧
    deliver envOk ⟨"light/" ++ "a" ++ "/on", "True"⟩
      [⟨"light/+/#", { name := "", ip := [10, 0, 0, 5], port := 5577, c := 1 }⟩] [] =
    Outcome.returned
      [⟨"light/+/#", { name := "", ip := [10, 0, 0, 5], port := 5577, c := 1 }⟩]
      [Event.call 1 (Command.SetState State.On) none] := by
  decide

/-- C9, the code at the failing input: one device, one message whose command fails on
the first connection.  The handler moves its session to connection 2, the element of
`mhctrls` stays on connection 0, and the teardown loop closes connection 0 a second
time; connection 2 is never closed. -/
theorem teardown_closes_stale_handle :
    main envDead0 [⟨"kitchen", "10.0.0.5", "5577"⟩] [⟨"light/kitchen/on", "True"⟩] =
      Outcome.returned
        { routes := [⟨"light/kitchen/#",
            { name := "", ip := [10, 0, 0, 5], port := 5577, c := 2 }⟩],
          mhctrls := [{ name := "", ip := [10, 0, 0, 5], port := 5577, c := 0 }] }
        [Event.New [10, 0, 0, 5] 5577 0 none,
         Event.call 0 (Command.SetState State.On) (some (GoError.dev 1)),
         Event.New [10, 0, 0, 5] 5577 2 none,
         Event.Close 0,
         Event.call 2 (Command.SetState State.On) none,
         Event.Close 0] := by
  decide

end Magicd
